import Mathlib

/-!
# Verification of the Mycelia bloom-token / bloom-bridge programs

Shallow embedding of the two on-chain programs
`packages/bloom-contracts/programs/bloom-token/src/lib.rs` and
`packages/bridge-infrastructure/programs/bloom-bridge/src/lib.rs`.

Conventions of the embedding:
* `Pubkey` and 32-byte values (`[u8; 32]`) are represented as `Nat`
  (little-endian numeric value); `Pubkey::default()` is `0`.
* `u64` arithmetic is modelled as `Nat` with explicit reduction `% 2^64`
  exactly where the Rust code performs a wrapping (release-mode) operation.
* Every instruction handler is a pure function from a `World` (the program
  accounts plus the SPL token ledger the programs call into) to
  `Except ErrorCode World`; an `error` result models the aborted Solana
  transaction, i.e. the pre-state is kept unchanged.
* The SPL token program (`token::transfer`, `token::mint_to`, `token::burn`)
  is the external collaborator of the spec; it is modelled with its checked
  arithmetic (it fails rather than overflow or underflow).
* `std::collections::hash_map::DefaultHasher` is SipHash-1-3 with both keys
  zero; it is implemented bit-faithfully below, together with the byte
  streams produced by the `Hash` impls of `Pubkey`/`[u8; 32]` (a `usize`
  length prefix followed by the bytes), `u64`, `i64` and `String` (the bytes
  followed by a `0xff` terminator byte).
-/

namespace Mycelia

/-- The constant `2^64`, the modulus of Rust `u64` arithmetic. -/
def U64 : Nat := 18446744073709551616

/-- Wrapping `u64` addition. -/
def wadd (a b : Nat) : Nat := (a + b) % U64

/-- Wrapping `u64` subtraction (two's complement) for operands below `2^64`. -/
def wsub (a b : Nat) : Nat := (a + (U64 - b % U64)) % U64

/-- Left rotation of a 64-bit word. -/
def rotl64 (x n : Nat) : Nat := ((x <<< n) ||| (x >>> (64 - n))) % U64

/-- Internal state of the SipHash permutation. -/
structure SipState where
  v0 : Nat
  v1 : Nat
  v2 : Nat
  v3 : Nat

/-- One SipRound of the SipHash permutation. -/
def sipRound (s : SipState) : SipState :=
  let v0 := wadd s.v0 s.v1
  let v1 := rotl64 s.v1 13
  let v1 := v1 ^^^ v0
  let v0 := rotl64 v0 32
  let v2 := wadd s.v2 s.v3
  let v3 := rotl64 s.v3 16
  let v3 := v3 ^^^ v2
  let v0 := wadd v0 v3
  let v3 := rotl64 v3 21
  let v3 := v3 ^^^ v0
  let v2 := wadd v2 v1
  let v1 := rotl64 v1 17
  let v1 := v1 ^^^ v2
  let v2 := rotl64 v2 32
  ⟨v0, v1, v2, v3⟩

/-- Absorb one 8-byte message word: SipHash-1-3 uses one compression round. -/
def sipCompress (s : SipState) (m : Nat) : SipState :=
  let s := { s with v3 := s.v3 ^^^ m }
  let s := sipRound s
  { s with v0 := s.v0 ^^^ m }

/-- Finalization: xor `0xff` into `v2`, three rounds, xor the state words. -/
def sipFinish (s : SipState) : Nat :=
  let s := { s with v2 := s.v2 ^^^ 0xff }
  let s := sipRound (sipRound (sipRound s))
  s.v0 ^^^ s.v1 ^^^ s.v2 ^^^ s.v3

/-- Little-endian value of a byte list (first byte is least significant). -/
def leWord (bs : List Nat) : Nat := bs.foldr (fun b acc => b + 256 * acc) 0

/-- Process the message stream: full 8-byte blocks, then the final partial
block whose top byte is the total length modulo 256. -/
def sipProcess (s : SipState) (len : Nat) : List Nat → Nat
  | b0 :: b1 :: b2 :: b3 :: b4 :: b5 :: b6 :: b7 :: rest =>
      sipProcess (sipCompress s (leWord [b0, b1, b2, b3, b4, b5, b6, b7])) len rest
  | rem => sipFinish (sipCompress s (leWord rem + (len % 256) * 72057594037927936))

/-- SipHash-1-3 with both keys zero: the algorithm of Rust's
`std::collections::hash_map::DefaultHasher::new()`.  The initial state is the
SipHash constants (zero keys leave them unchanged). -/
def sipHash13 (bytes : List Nat) : Nat :=
  sipProcess ⟨0x736f6d6570736575, 0x646f72616e646f6d,
              0x6c7967656e657261, 0x7465646279746573⟩ bytes.length bytes

/-- The `k` little-endian bytes of `n`. -/
def natLeBytes (n k : Nat) : List Nat := (List.range k).map (fun i => n / 256 ^ i % 256)

/-- The 32 bytes of a `[u8; 32]` value. -/
def bytes32 (x : Nat) : List Nat := natLeBytes x 32

/-- Byte stream written by `Hasher::write_u64` (8 bytes little-endian). -/
def u64Stream (x : Nat) : List Nat := natLeBytes (x % U64) 8

/-- Byte stream written by hashing a `[u8; 32]` (and hence a `Pubkey`):
a `usize` length prefix of 32 followed by the bytes themselves. -/
def bytes32Stream (x : Nat) : List Nat := u64Stream 32 ++ bytes32 x

/-- Byte stream written by hashing a `String`: its UTF-8 bytes followed by a
single `0xff` byte. -/
def stringStream (s : String) : List Nat :=
  (s.toUTF8.toList.map (fun b => b.toNat)) ++ [0xff]

/-- Byte stream written by `Hasher::write_i64` (two's complement, LE). -/
def i64Stream (x : Int) : List Nat := natLeBytes (x % (U64 : Int)).toNat 8

/-! ## Helper functions of the bridge program (source lines 458-503) -/

/-- Source `hash_pair(left, right)`: feed both 32-byte values into a fresh
`DefaultHasher` and truncate the 64-bit result into a 32-byte value whose
top 24 bytes are zero (numerically: just the 64-bit hash). -/
def hash_pair (left right : Nat) : Nat :=
  sipHash13 (bytes32Stream left ++ bytes32Stream right)

/-- Source `generate_leaf(user, amount, transaction_id)`. -/
def generate_leaf (user amount transaction_id : Nat) : Nat :=
  sipHash13 (bytes32Stream user ++ u64Stream amount ++ bytes32Stream transaction_id)

/-- Source `generate_transaction_id(user, amount, evm_address)`; the clock value read
inside the function is passed explicitly. -/
def generate_transaction_id (user amount : Nat) (evm_address : String) (now : Int) : Nat :=
  sipHash13 (bytes32Stream user ++ u64Stream amount ++ stringStream evm_address ++ i64Stream now)

/-- The `for sibling in proof { current = hash_pair(current, sibling) }` loop
of `verify_merkle_proof`. -/
def verifyLoop (current : Nat) : List Nat → Nat
  | [] => current
  | sibling :: rest => verifyLoop (hash_pair current sibling) rest

/-- Source `verify_merkle_proof(leaf, proof, root)`. -/
def verify_merkle_proof (leaf : Nat) (proof : List Nat) (root : Nat) : Bool :=
  verifyLoop leaf proof == root

/-! ## Data model -/

/-- The `MintData` account of the bloom-token program (source lines 298-310);
the `bump` storage detail is omitted. -/
structure MintData where
  name : String
  symbol : String
  decimals : Nat
  total_supply : Nat
  total_minted : Nat
  total_burned : Nat
  mint_authority : Nat
  mint_guard : Nat
  reserve_feed : Nat

/-- The `BridgeData` account of the bloom-bridge program (source lines 373-385);
the `bump` storage detail is omitted. -/
structure BridgeData where
  bloom_token_mint : Nat
  mint_guard : Nat
  relayer : Nat
  max_bridge_amount : Nat
  min_bridge_amount : Nat
  fee_rate : Nat
  total_locked : Nat
  merkle_root : Nat
  merkle_root_update_time : Int

/-- The `UserLocked` account (source lines 387-393), lazily created per user. -/
structure UserLocked where
  user : Nat
  amount : Nat
  last_update : Int

/-- The `ProcessedTransaction` account (source lines 395-401), lazily created per
32-byte transaction id.  The handler never writes the `transaction_id` field,
so it keeps its zero-initialised value; the record is addressed by the id. -/
structure ProcessedTransaction where
  transaction_id : Nat
  is_processed : Bool
  processed_at : Int

/-- Return value of `get_bridge_stats` (source lines 403-408). -/
structure BridgeStats where
  total_locked : Nat
  merkle_root : Nat
  merkle_root_update_time : Int
deriving DecidableEq

/-- State of the external SPL token ledger for the bloom mint: the mint's
supply and the balance of every token account. -/
structure SplState where
  supply : Nat
  balances : Nat → Nat

/-- The combined state both programs operate on: the bloom-token program
account, the SPL token ledger, and the bridge program accounts (the keyed
collections are total maps into `Option`). -/
structure World where
  mint_data : MintData
  spl : SplState
  bridge_data : BridgeData
  user_locked : Nat → Option UserLocked
  processed_tx : Nat → Option ProcessedTransaction

/-- Pointwise update of a balances map. -/
def updFn (f : Nat → Nat) (k v : Nat) : Nat → Nat :=
  fun a => if a = k then v else f a

/-- Pointwise update of a keyed collection. -/
def updMap {α : Type} (f : Nat → Option α) (k : Nat) (v : α) : Nat → Option α :=
  fun a => if a = k then some v else f a

/-! ## The external SPL token primitives (spec section 6)

These model `token::transfer`, `token::mint_to` and `token::burn` of the SPL
token program, including its checked arithmetic: the primitives fail instead
of overflowing or underflowing `u64`. -/

/-- Errors of the external token program. -/
inductive TokenErr
  | InsufficientFunds
  | Overflow
deriving DecidableEq

/-- External `token::transfer(source, dest, amount)`. -/
def spl_transfer (s : SplState) (source dest amount : Nat) : Except TokenErr SplState :=
  if s.balances source < amount then .error .InsufficientFunds
  else
    let b1 := updFn s.balances source (s.balances source - amount)
    if U64 ≤ b1 dest + amount then .error .Overflow
    else .ok { s with balances := updFn b1 dest (b1 dest + amount) }

/-- External `token::mint_to(dest, amount)`. -/
def spl_mint_to (s : SplState) (dest amount : Nat) : Except TokenErr SplState :=
  if U64 ≤ s.supply + amount then .error .Overflow
  else if U64 ≤ s.balances dest + amount then .error .Overflow
  else .ok ⟨s.supply + amount, updFn s.balances dest (s.balances dest + amount)⟩

/-- External `token::burn(source, amount)`. -/
def spl_burn (s : SplState) (source amount : Nat) : Except TokenErr SplState :=
  if s.balances source < amount then .error .InsufficientFunds
  else if s.supply < amount then .error .Overflow
  else .ok ⟨s.supply - amount, updFn s.balances source (s.balances source - amount)⟩

/-! ## The bloom-token program (`bloom_token` module) -/

/-- Error codes of the bloom-token program (source lines 353-363), together
with propagated errors of the external SPL token program. -/
inductive TokenErrorCode
  | MintWouldBreakPeg
  | UnauthorizedMintAuthority
  | InvalidAmount
  | InsufficientBalance
  | Spl (e : TokenErr)
deriving DecidableEq

/-- Handler `initialize_bloom_mint`: the `MintData` account it creates, with zeroed
counters and `Pubkey::default()` guard and feed references. -/
def initialize_bloom_mint (name symbol : String) (decimals mint_authority : Nat) : MintData :=
  { name := name
    symbol := symbol
    decimals := decimals
    total_supply := 0
    total_minted := 0
    total_burned := 0
    mint_authority := mint_authority
    mint_guard := 0
    reserve_feed := 0 }

/-- Handler `set_mint_guard` (authority-gated by the `has_one = mint_authority`
account constraint, checked before the handler body runs). -/
def set_mint_guard (w : World) (signer mint_guard : Nat) : Except TokenErrorCode World :=
  if signer ≠ w.mint_data.mint_authority then .error .UnauthorizedMintAuthority
  else .ok { w with mint_data := { w.mint_data with mint_guard := mint_guard } }

/-- Handler `set_reserve_feed` (authority-gated like `set_mint_guard`). -/
def set_reserve_feed (w : World) (signer reserve_feed : Nat) : Except TokenErrorCode World :=
  if signer ≠ w.mint_data.mint_authority then .error .UnauthorizedMintAuthority
  else .ok { w with mint_data := { w.mint_data with reserve_feed := reserve_feed } }

/-- Handler `mint_bloom(amount, reason)`.  When a mint guard is configured
(`mint_guard != Pubkey::default()`) the guard program is invoked; the
external guard's accept/reject decision is the `guard_accepts` parameter
(`can_mint.is_err()` in the source).  On rejection the handler returns
`MintWouldBreakPeg` before any mutation.  Otherwise it mints via the external
`token::mint_to` and then adds `amount` to the `u64` counters `total_supply`
and `total_minted` (wrapping `+=`). -/
def mint_bloom (w : World) (guard_accepts : Bool) (dest amount : Nat) (_reason : String) :
    Except TokenErrorCode World :=
  if w.mint_data.mint_guard ≠ 0 ∧ guard_accepts = false then .error .MintWouldBreakPeg
  else
    match spl_mint_to w.spl dest amount with
    | .error e => .error (.Spl e)
    | .ok spl' =>
        .ok { w with
              spl := spl'
              mint_data := { w.mint_data with
                             total_supply := wadd w.mint_data.total_supply amount
                             total_minted := wadd w.mint_data.total_minted amount } }

/-- Handler `burn_bloom(amount, reason)`: burns via the external `token::burn`
(its insufficient-funds failure is propagated, not re-checked) and then
updates the counters with wrapping `u64` arithmetic
(`total_supply -= amount`, `total_burned += amount`). -/
def burn_bloom (w : World) (source amount : Nat) (_reason : String) :
    Except TokenErrorCode World :=
  match spl_burn w.spl source amount with
  | .error e => .error (.Spl e)
  | .ok spl' =>
      .ok { w with
            spl := spl'
            mint_data := { w.mint_data with
                           total_supply := wsub w.mint_data.total_supply amount
                           total_burned := wadd w.mint_data.total_burned amount } }

/-! ## The bloom-bridge program (`bloom_bridge` module) -/

/-- Error codes of the bloom-bridge program (source lines 440-456), plus
propagated SPL errors and the Anchor account-missing failure raised when an
instruction names a `user_locked` account that was never created. -/
inductive BridgeErrorCode
  | AmountBelowMinimum
  | AmountAboveMaximum
  | TransactionAlreadyProcessed
  | InvalidMerkleProof
  | InsufficientLockedBalance
  | UnauthorizedAuthority
  | UnauthorizedRelayer
  | AccountNotFound
  | Spl (e : TokenErr)
deriving DecidableEq

/-- Handler `initialize_bridge`: the `BridgeData` account it creates
(`total_locked = 0`, zero merkle root, zero update time). -/
def initialize_bridge (bloom_token_mint mint_guard relayer : Nat)
    (max_bridge_amount min_bridge_amount fee_rate : Nat) : BridgeData :=
  { bloom_token_mint := bloom_token_mint
    mint_guard := mint_guard
    relayer := relayer
    max_bridge_amount := max_bridge_amount % U64
    min_bridge_amount := min_bridge_amount % U64
    fee_rate := fee_rate % 65536
    total_locked := 0
    merkle_root := 0
    merkle_root_update_time := 0 }

/-- Handler `set_relayer(new_relayer)`.  The source declares `has_one = authority` on
the bridge account, but `BridgeData` has no `authority` field, so no checkable
authority gate exists in the source; the handler body is modelled as is. -/
def set_relayer (w : World) (new_relayer : Nat) : Except BridgeErrorCode World :=
  .ok { w with bridge_data := { w.bridge_data with relayer := new_relayer } }

/-- Handler `update_merkle_root(new_root)`: relayer-gated
(`has_one = relayer` plus the relayer's signature). -/
def update_merkle_root (w : World) (signer new_root : Nat) (now : Int) :
    Except BridgeErrorCode World :=
  if signer ≠ w.bridge_data.relayer then .error .UnauthorizedRelayer
  else .ok { w with bridge_data := { w.bridge_data with
               merkle_root := new_root
               merkle_root_update_time := now } }

/-- Handler `lock_tokens(amount, evm_address)`.  Validates the amount range, computes
`fee = (amount * fee_rate as u64) / 10000` with the wrapping `u64`
multiplication of the source and `net_amount = amount - fee` (wrapping
subtraction), transfers the full `amount` from the user's token account
`uta` to the bridge's token account `bta` via the external primitive, and
adds `net_amount` to the (lazily created) `UserLocked` record.  The clock
value is `now`; the generated transaction id only feeds the emitted event. -/
def lock_tokens (w : World) (user uta bta amount : Nat) (_evm_address : String)
    (now : Int) : Except BridgeErrorCode World :=
  if amount < w.bridge_data.min_bridge_amount then .error .AmountBelowMinimum
  else if w.bridge_data.max_bridge_amount < amount then .error .AmountAboveMaximum
  else
    let fee := (amount * w.bridge_data.fee_rate) % U64 / 10000
    let net_amount := wsub amount fee
    match spl_transfer w.spl uta bta amount with
    | .error e => .error (.Spl e)
    | .ok spl' =>
        let ul := (w.user_locked user).getD ⟨0, 0, 0⟩
        let ul' := { ul with amount := wadd ul.amount net_amount, last_update := now }
        .ok { w with spl := spl', user_locked := updMap w.user_locked user ul' }

/-- Handler `unlock_tokens(user, amount, transaction_id, merkle_proof)`: relayer-gated
(`has_one = relayer` plus the relayer's signature).  Fails on an already
processed transaction id, recomputes the leaf and verifies the merkle proof
against the stored root, then marks the (lazily created) record processed and
mints `amount` straight through the external `token::mint_to` into the user's
token account `uta`, signed with the bridge PDA seeds. -/
def unlock_tokens (w : World) (signer user uta amount transaction_id : Nat)
    (merkle_proof : List Nat) (now : Int) : Except BridgeErrorCode World :=
  if signer ≠ w.bridge_data.relayer then .error .UnauthorizedRelayer
  else
    let ptx := (w.processed_tx transaction_id).getD ⟨0, false, 0⟩
    if ptx.is_processed then .error .TransactionAlreadyProcessed
    else
      let leaf := generate_leaf user amount transaction_id
      if verify_merkle_proof leaf merkle_proof w.bridge_data.merkle_root = false then
        .error .InvalidMerkleProof
      else
        match spl_mint_to w.spl uta amount with
        | .error e => .error (.Spl e)
        | .ok spl' =>
            .ok { w with
                  spl := spl'
                  processed_tx := updMap w.processed_tx transaction_id
                    { ptx with is_processed := true, processed_at := now } }

/-- Handler `emergency_unlock(amount)`.  Requires an existing `UserLocked` account
for `user` (Anchor account resolution), checks the locked balance, decrements
it and transfers `amount` from the bridge token account `bta` back to the
user's token account `uta`.  As with `set_relayer`, the source's
`has_one = authority` constraint references a field `BridgeData` does not
have, so no authority check is modelled. -/
def emergency_unlock (w : World) (user bta uta amount : Nat) (now : Int) :
    Except BridgeErrorCode World :=
  match w.user_locked user with
  | none => .error .AccountNotFound
  | some ul =>
      if ul.amount < amount then .error .InsufficientLockedBalance
      else
        let ul' := { ul with amount := ul.amount - amount, last_update := now }
        match spl_transfer w.spl bta uta amount with
        | .error e => .error (.Spl e)
        | .ok spl' =>
            .ok { w with spl := spl', user_locked := updMap w.user_locked user ul' }

/-- Handler `get_bridge_stats`: the source handler ignores the bridge account and
returns a literal all-zero `BridgeStats` value. -/
def get_bridge_stats (_w : World) : BridgeStats :=
  { total_locked := 0, merkle_root := 0, merkle_root_update_time := 0 }

/-! ## Execution model -/

/-- Whether an instruction result is a success. -/
def exOk {ε α : Type} : Except ε α → Bool
  | .ok _ => true
  | .error _ => false

/-- Commit semantics of a Solana instruction: a successful result replaces
the state, a failed one aborts the transaction and keeps the pre-state. -/
def runW {ε : Type} (w : World) (r : Except ε World) : World :=
  match r with
  | .ok w' => w'
  | .error _ => w

/-- The locked amount recorded for `user` (zero before first lock). -/
def lockedAmt (w : World) (user : Nat) : Nat :=
  ((w.user_locked user).getD ⟨0, 0, 0⟩).amount

/-- The replay flag recorded for a transaction id (false before creation). -/
def isProcessedAt (w : World) (transaction_id : Nat) : Bool :=
  match w.processed_tx transaction_id with
  | some p => p.is_processed
  | none => false

/-- Replace only the stored merkle root of a state. -/
def setRoot (w : World) (root : Nat) : World :=
  { w with bridge_data := { w.bridge_data with merkle_root := root } }

/-- The world right after both programs are initialised: zeroed token
counters, an empty SPL ledger for the fresh mint, a fresh bridge account and
no `UserLocked` or `ProcessedTransaction` records. -/
def init_world (name symbol : String) (decimals mint_authority : Nat)
    (bloom_token_mint mint_guard relayer : Nat)
    (max_bridge_amount min_bridge_amount fee_rate : Nat) : World :=
  { mint_data := initialize_bloom_mint name symbol decimals mint_authority
    spl := ⟨0, fun _ => 0⟩
    bridge_data := initialize_bridge bloom_token_mint mint_guard relayer
      max_bridge_amount min_bridge_amount fee_rate
    user_locked := fun _ => none
    processed_tx := fun _ => none }

/-- One successful instruction of either program, any caller, any arguments. -/
inductive Step : World → World → Prop
  | set_mint_guard (w w' : World) (signer g : Nat) :
      set_mint_guard w signer g = .ok w' → Step w w'
  | set_reserve_feed (w w' : World) (signer f : Nat) :
      set_reserve_feed w signer f = .ok w' → Step w w'
  | mint_bloom (w w' : World) (g : Bool) (dest amount : Nat) (reason : String) :
      mint_bloom w g dest amount reason = .ok w' → Step w w'
  | burn_bloom (w w' : World) (source amount : Nat) (reason : String) :
      burn_bloom w source amount reason = .ok w' → Step w w'
  | set_relayer (w w' : World) (r : Nat) :
      set_relayer w r = .ok w' → Step w w'
  | update_merkle_root (w w' : World) (signer root : Nat) (now : Int) :
      update_merkle_root w signer root now = .ok w' → Step w w'
  | lock_tokens (w w' : World) (user uta bta amount : Nat) (evm : String) (now : Int) :
      lock_tokens w user uta bta amount evm now = .ok w' → Step w w'
  | unlock_tokens (w w' : World) (signer user uta amount tid : Nat)
      (proof : List Nat) (now : Int) :
      unlock_tokens w signer user uta amount tid proof now = .ok w' → Step w w'
  | emergency_unlock (w w' : World) (user bta uta amount : Nat) (now : Int) :
      emergency_unlock w user bta uta amount now = .ok w' → Step w w'

/-- States reachable from a fresh deployment by successful instructions. -/
inductive Reachable : World → Prop
  | init (name symbol : String) (decimals mint_authority : Nat)
      (bloom_token_mint mint_guard relayer : Nat)
      (maxA minA fee : Nat) :
      Reachable (init_world name symbol decimals mint_authority
        bloom_token_mint mint_guard relayer maxA minA fee)
  | step (w w' : World) : Reachable w → Step w w' → Reachable w'

/-- States reachable from a fresh deployment using only the mint and burn
instructions of the token program (the scope of the supply-invariant claim). -/
inductive MintBurnReach : World → Prop
  | init (name symbol : String) (decimals mint_authority : Nat)
      (bloom_token_mint mint_guard relayer : Nat)
      (maxA minA fee : Nat) :
      MintBurnReach (init_world name symbol decimals mint_authority
        bloom_token_mint mint_guard relayer maxA minA fee)
  | mint (w w' : World) (g : Bool) (dest amount : Nat) (reason : String) :
      MintBurnReach w → mint_bloom w g dest amount reason = .ok w' → MintBurnReach w'
  | burn (w w' : World) (source amount : Nat) (reason : String) :
      MintBurnReach w → burn_bloom w source amount reason = .ok w' → MintBurnReach w'

/-! ## Concrete states used by the instance theorems -/

/-- A deployment with authority 1, relayer 7, a configured bridge mint guard,
amount range `[0, 100]` and a 30 bps fee. -/
def c1Base : World := init_world "BLOOM" "BLM" 9 1 3 9 7 100 0 30

/-- State `c1Base` after the authority also installs mint guard 9 in the token
program, so a guard is configured on both sides. -/
def c1G : World := runW c1Base (set_mint_guard c1Base 1 9)

/-- State `c1G` after the relayer publishes the root matching the single leaf
for user 1, amount 5, transaction id 2 (so the empty proof verifies). -/
def c1W : World := runW c1G (update_merkle_root c1G 7 (generate_leaf 1 5 2) 0)

/-- State `c1W` after the relayer unlocks amount 5 for user 1 into token account 11. -/
def c1W' : World := runW c1W (unlock_tokens c1W 7 1 11 5 2 [] 0)

/-- A second deployment (relayer 7, authority 1). -/
def c2Base : World := init_world "B" "B" 9 1 3 0 7 1000 1 25

/-- State `c2Base` with the root for user 4, amount 6, transaction id 3 published. -/
def c2W : World := runW c2Base (update_merkle_root c2Base 7 (generate_leaf 4 6 3) 0)

/-- State `c2W` after the first unlock of transaction id 3. -/
def c2W1 : World := runW c2W (unlock_tokens c2W 7 4 12 6 3 [] 1)

/-- A deployment whose relayer 7 then publishes merkle root 1 at time 5. -/
def c3W : World :=
  runW (init_world "B" "B" 9 1 3 0 7 50 1 10)
    (update_merkle_root (init_world "B" "B" 9 1 3 0 7 50 1 10) 7 1 5)

/-- A deployment with amount range `[0, 2^63]` and `fee_rate = 4`;
no mint guard, so minting is unchecked. -/
def c4Base : World := init_world "B" "B" 9 1 3 0 7 9223372036854775808 0 4

/-- State `c4Base` after minting `2^63` tokens into the user's token account 11. -/
def c4W : World := runW c4Base (mint_bloom c4Base true 11 9223372036854775808 "")

/-- State `c4W` after user 1 locks `2^63` tokens (account 11 to bridge account 12). -/
def c4W' : World := runW c4W (lock_tokens c4W 1 11 12 9223372036854775808 "x" 0)

/-- Deployment used by the supply-counter trace. -/
def c7W0 : World := init_world "B" "B" 9 1 3 0 7 100 0 30

/-- State `c7W0` after minting `2^64 - 1` tokens to account 10. -/
def c7W1 : World := runW c7W0 (mint_bloom c7W0 true 10 18446744073709551615 "")

/-- State `c7W1` after burning the `2^64 - 1` tokens again. -/
def c7W2 : World := runW c7W1 (burn_bloom c7W1 10 18446744073709551615 "")

/-- State `c7W2` after minting 6 more tokens: the cumulative minted volume passes
`2^64` and the wrapping `total_minted` counter falls from `2^64 - 1` to 5. -/
def c7W3 : World := runW c7W2 (mint_bloom c7W2 true 10 6 "")

/-- A deployment whose authority installs mint guard 5. -/
def c8G : World :=
  runW (init_world "B" "B" 9 1 3 0 7 100 0 30)
    (set_mint_guard (init_world "B" "B" 9 1 3 0 7 100 0 30) 1 5)

/-- A guard-free deployment for the unchecked-mint half of the guard claim. -/
def c8N : World := init_world "B" "B" 9 1 3 0 7 100 0 30

/-- A deployment where user 1 funds token account 11 with 50 tokens. -/
def c9Base : World :=
  runW (init_world "B" "B" 9 1 3 0 7 100 0 30)
    (mint_bloom (init_world "B" "B" 9 1 3 0 7 100 0 30) true 11 50 "")

/-- State `c9Base` after user 1 locks 40 tokens (fee 0 at 30 bps), leaving a
locked balance of 40 and 40 tokens pooled in bridge account 12. -/
def c9W : World := runW c9Base (lock_tokens c9Base 1 11 12 40 "x" 0)

/-- The supply bookkeeping invariant maintained by mint/burn: the stored
`total_supply` is the true SPL supply (hence it never underflows or wraps),
all counters are `u64` values, and the counters satisfy the supply equation
modulo `2^64`. -/
def SupplyInv (w : World) : Prop :=
  w.mint_data.total_supply = w.spl.supply
  ∧ w.spl.supply < U64
  ∧ w.mint_data.total_minted < U64
  ∧ w.mint_data.total_burned < U64
  ∧ (w.mint_data.total_supply + w.mint_data.total_burned) % U64 = w.mint_data.total_minted

/-! ## Frame lemmas: what each instruction leaves untouched -/

lemma set_mint_guard_frame {w w' : World} {s g : Nat}
    (h : set_mint_guard w s g = .ok w') :
    w'.spl = w.spl ∧ w'.bridge_data = w.bridge_data ∧ w'.user_locked = w.user_locked
      ∧ w'.processed_tx = w.processed_tx := by
  unfold set_mint_guard at h
  split at h
  · exact Except.noConfusion h
  · injection h with h; subst h; exact ⟨rfl, rfl, rfl, rfl⟩

lemma set_reserve_feed_frame {w w' : World} {s f : Nat}
    (h : set_reserve_feed w s f = .ok w') :
    w'.spl = w.spl ∧ w'.bridge_data = w.bridge_data ∧ w'.user_locked = w.user_locked
      ∧ w'.processed_tx = w.processed_tx := by
  unfold set_reserve_feed at h
  split at h
  · exact Except.noConfusion h
  · injection h with h; subst h; exact ⟨rfl, rfl, rfl, rfl⟩

lemma mint_bloom_frame {w w' : World} {g : Bool} {d a : Nat} {r : String}
    (h : mint_bloom w g d a r = .ok w') :
    w'.bridge_data = w.bridge_data ∧ w'.user_locked = w.user_locked
      ∧ w'.processed_tx = w.processed_tx := by
  unfold mint_bloom at h
  split at h
  · exact Except.noConfusion h
  · split at h
    · exact Except.noConfusion h
    · injection h with h; subst h; exact ⟨rfl, rfl, rfl⟩

lemma burn_bloom_frame {w w' : World} {s a : Nat} {r : String}
    (h : burn_bloom w s a r = .ok w') :
    w'.bridge_data = w.bridge_data ∧ w'.user_locked = w.user_locked
      ∧ w'.processed_tx = w.processed_tx := by
  unfold burn_bloom at h
  split at h
  · exact Except.noConfusion h
  · injection h with h; subst h; exact ⟨rfl, rfl, rfl⟩

lemma set_relayer_frame {w w' : World} {r : Nat}
    (h : set_relayer w r = .ok w') :
    w'.mint_data = w.mint_data ∧ w'.spl = w.spl ∧ w'.user_locked = w.user_locked
      ∧ w'.processed_tx = w.processed_tx
      ∧ w'.bridge_data.total_locked = w.bridge_data.total_locked := by
  unfold set_relayer at h
  injection h with h; subst h; exact ⟨rfl, rfl, rfl, rfl, rfl⟩

lemma update_merkle_root_frame {w w' : World} {s root : Nat} {now : Int}
    (h : update_merkle_root w s root now = .ok w') :
    w'.mint_data = w.mint_data ∧ w'.spl = w.spl ∧ w'.user_locked = w.user_locked
      ∧ w'.processed_tx = w.processed_tx
      ∧ w'.bridge_data.total_locked = w.bridge_data.total_locked := by
  unfold update_merkle_root at h
  split at h
  · exact Except.noConfusion h
  · injection h with h; subst h; exact ⟨rfl, rfl, rfl, rfl, rfl⟩

lemma lock_tokens_frame {w w' : World} {user uta bta amount : Nat} {e : String} {now : Int}
    (h : lock_tokens w user uta bta amount e now = .ok w') :
    w'.mint_data = w.mint_data ∧ w'.bridge_data = w.bridge_data
      ∧ w'.processed_tx = w.processed_tx := by
  unfold lock_tokens at h
  split at h
  · exact Except.noConfusion h
  · split at h
    · exact Except.noConfusion h
    · split at h
      · exact Except.noConfusion h
      · injection h with h; subst h; exact ⟨rfl, rfl, rfl⟩

lemma unlock_tokens_frame {w w' : World} {signer user uta amount tid : Nat}
    {proof : List Nat} {now : Int}
    (h : unlock_tokens w signer user uta amount tid proof now = .ok w') :
    w'.mint_data = w.mint_data ∧ w'.bridge_data = w.bridge_data
      ∧ w'.user_locked = w.user_locked := by
  simp only [unlock_tokens] at h
  repeat' split at h
  all_goals first
    | exact Except.noConfusion h
    | (injection h with h; subst h; exact ⟨rfl, rfl, rfl⟩)

lemma emergency_unlock_frame {w w' : World} {user bta uta amount : Nat} {now : Int}
    (h : emergency_unlock w user bta uta amount now = .ok w') :
    w'.mint_data = w.mint_data ∧ w'.bridge_data = w.bridge_data
      ∧ w'.processed_tx = w.processed_tx := by
  unfold emergency_unlock at h
  split at h
  · exact Except.noConfusion h
  · split at h
    · exact Except.noConfusion h
    · split at h
      · exact Except.noConfusion h
      · injection h with h; subst h; exact ⟨rfl, rfl, rfl⟩

/-! ## Success-shape lemmas for the mutating instructions -/

lemma getD_is_processed (w : World) (t : Nat) :
    ((w.processed_tx t).getD ⟨0, false, 0⟩).is_processed = isProcessedAt w t := by
  cases h : w.processed_tx t <;> simp [isProcessedAt, h]

lemma spl_mint_to_ok {s : SplState} {dest amount : Nat}
    (hsup : s.supply + amount < U64) (hbal : s.balances dest + amount < U64) :
    spl_mint_to s dest amount =
      .ok ⟨s.supply + amount, updFn s.balances dest (s.balances dest + amount)⟩ := by
  simp only [spl_mint_to]
  rw [if_neg (Nat.not_le.mpr hsup), if_neg (Nat.not_le.mpr hbal)]

lemma spl_transfer_ok {s : SplState} {source dest amount : Nat}
    (hsrc : amount ≤ s.balances source) (hne : dest ≠ source)
    (hdst : s.balances dest + amount < U64) :
    spl_transfer s source dest amount =
      .ok { s with balances :=
              (updFn (updFn s.balances source (s.balances source - amount)) dest
                (s.balances dest + amount)) } := by
  simp only [spl_transfer, updFn]
  rw [if_neg (Nat.not_lt.mpr hsrc), if_neg hne, if_neg (Nat.not_le.mpr hdst)]

lemma spl_burn_ok {s : SplState} {source amount : Nat}
    (hbal : amount ≤ s.balances source) (hsup : amount ≤ s.supply) :
    spl_burn s source amount =
      .ok ⟨s.supply - amount, updFn s.balances source (s.balances source - amount)⟩ := by
  simp only [spl_burn]
  rw [if_neg (Nat.not_lt.mpr hbal), if_neg (Nat.not_lt.mpr hsup)]

lemma mint_bloom_ok {w : World} {g : Bool} {dest amount : Nat} {r : String}
    (hg : w.mint_data.mint_guard = 0 ∨ g = true)
    (hsup : w.spl.supply + amount < U64) (hbal : w.spl.balances dest + amount < U64) :
    mint_bloom w g dest amount r =
      .ok { w with
            spl := ⟨w.spl.supply + amount, updFn w.spl.balances dest (w.spl.balances dest + amount)⟩
            mint_data := { w.mint_data with
                           total_supply := wadd w.mint_data.total_supply amount
                           total_minted := wadd w.mint_data.total_minted amount } } := by
  simp only [mint_bloom]
  rw [if_neg (by rcases hg with hg | hg <;> simp [hg]), spl_mint_to_ok hsup hbal]

lemma burn_bloom_ok {w : World} {source amount : Nat} {r : String}
    (hbal : amount ≤ w.spl.balances source) (hsup : amount ≤ w.spl.supply) :
    burn_bloom w source amount r =
      .ok { w with
            spl := ⟨w.spl.supply - amount, updFn w.spl.balances source (w.spl.balances source - amount)⟩
            mint_data := { w.mint_data with
                           total_supply := wsub w.mint_data.total_supply amount
                           total_burned := wadd w.mint_data.total_burned amount } } := by
  simp only [burn_bloom]
  rw [spl_burn_ok hbal hsup]

lemma lock_tokens_ok {w : World} (user : Nat) {uta bta amount : Nat} (e : String) (now : Int)
    (hmin : w.bridge_data.min_bridge_amount ≤ amount)
    (hmax : amount ≤ w.bridge_data.max_bridge_amount)
    (hsrc : amount ≤ w.spl.balances uta) (hne : bta ≠ uta)
    (hdst : w.spl.balances bta + amount < U64) :
    lock_tokens w user uta bta amount e now =
      .ok { w with
            spl := { w.spl with balances :=
                       (updFn (updFn w.spl.balances uta (w.spl.balances uta - amount)) bta
                         (w.spl.balances bta + amount)) }
            user_locked := updMap w.user_locked user
              ⟨((w.user_locked user).getD ⟨0, 0, 0⟩).user,
               wadd ((w.user_locked user).getD ⟨0, 0, 0⟩).amount
                 (wsub amount ((amount * w.bridge_data.fee_rate) % U64 / 10000)),
               now⟩ } := by
  simp only [lock_tokens]
  rw [if_neg (Nat.not_lt.mpr hmin), if_neg (Nat.not_lt.mpr hmax), spl_transfer_ok hsrc hne hdst]

lemma unlock_tokens_ok {w : World} {signer user uta amount tid : Nat}
    {proof : List Nat} (now : Int)
    (hsig : signer = w.bridge_data.relayer)
    (hfresh : isProcessedAt w tid = false)
    (hproof : verify_merkle_proof (generate_leaf user amount tid) proof
                w.bridge_data.merkle_root = true)
    (hsup : w.spl.supply + amount < U64) (hbal : w.spl.balances uta + amount < U64) :
    unlock_tokens w signer user uta amount tid proof now =
      .ok { w with
            spl := ⟨w.spl.supply + amount, updFn w.spl.balances uta (w.spl.balances uta + amount)⟩
            processed_tx := updMap w.processed_tx tid
              ⟨((w.processed_tx tid).getD ⟨0, false, 0⟩).transaction_id, true, now⟩ } := by
  simp only [unlock_tokens]
  rw [if_neg (by simp [hsig])]
  rw [if_neg (by rw [getD_is_processed, hfresh]; exact Bool.false_ne_true)]
  rw [if_neg (by rw [hproof]; exact Bool.true_eq_false ▸ (by simp))]
  rw [spl_mint_to_ok hsup hbal]

lemma emergency_unlock_ok {w : World} {user bta uta amount : Nat} (now : Int) {ul : UserLocked}
    (hul : w.user_locked user = some ul)
    (hle : amount ≤ ul.amount)
    (hsrc : amount ≤ w.spl.balances bta) (hne : uta ≠ bta)
    (hdst : w.spl.balances uta + amount < U64) :
    emergency_unlock w user bta uta amount now =
      .ok { w with
            spl := { w.spl with balances :=
                       (updFn (updFn w.spl.balances bta (w.spl.balances bta - amount)) uta
                         (w.spl.balances uta + amount)) }
            user_locked := updMap w.user_locked user
              ⟨ul.user, ul.amount - amount, now⟩ } := by
  simp only [emergency_unlock, hul]
  rw [if_neg (Nat.not_lt.mpr hle), spl_transfer_ok hsrc hne hdst]

/-- No instruction ever writes `total_locked`. -/
lemma step_total_locked {w w' : World} (h : Step w w') :
    w'.bridge_data.total_locked = w.bridge_data.total_locked := by
  cases h with
  | set_mint_guard s g h => rw [(set_mint_guard_frame h).2.1]
  | set_reserve_feed s f h => rw [(set_reserve_feed_frame h).2.1]
  | mint_bloom g d a r h => rw [(mint_bloom_frame h).1]
  | burn_bloom s a r h => rw [(burn_bloom_frame h).1]
  | set_relayer r h => exact (set_relayer_frame h).2.2.2.2
  | update_merkle_root s root now h => exact (update_merkle_root_frame h).2.2.2.2
  | lock_tokens u uta bta a e now h => rw [(lock_tokens_frame h).2.1]
  | unlock_tokens s u uta a t p now h => rw [(unlock_tokens_frame h).2.1]
  | emergency_unlock u bta uta a now h => rw [(emergency_unlock_frame h).2.1]

/-! ## Claim theorems -/

/-- C5: `verify_merkle_proof leaf proof root` returns true iff the left fold
of `hash_pair` (running value on the left, sibling on the right) over the
proof, starting from the leaf, equals the expected root; in particular a
two-step proof against the root `H(H(L, s1), s2)` always verifies. -/
theorem verify_merkle_proof_is_ordered_fold :
    (∀ leaf root : Nat, ∀ proof : List Nat,
      verify_merkle_proof leaf proof root = true ↔
        List.foldl hash_pair leaf proof = root)
    ∧ ∀ L s1 s2 : Nat,
        verify_merkle_proof L [s1, s2] (hash_pair (hash_pair L s1) s2) = true := by
  have hfold : ∀ (p : List Nat) (c : Nat), verifyLoop c p = List.foldl hash_pair c p := by
    intro p
    induction p with
    | nil => intro c; rfl
    | cons s rest ih => intro c; simp [verifyLoop, List.foldl, ih]
  constructor
  · intro leaf root proof
    simp [verify_merkle_proof, hfold]
  · intro L s1 s2
    simp [verify_merkle_proof, verifyLoop]

/-- C3 (code bug): `get_bridge_stats` does not read the stored bridge state.
After the relayer publishes merkle root 1, the stored root is 1 but the
handler still reports the constant 0. -/
theorem get_bridge_stats_ignores_state :
    update_merkle_root (init_world "B" "B" 9 1 3 0 7 50 1 10) 7 1 5 = .ok c3W
    ∧ c3W.bridge_data.merkle_root = 1
    ∧ (get_bridge_stats c3W).merkle_root = 0
    ∧ (get_bridge_stats c3W).merkle_root ≠ c3W.bridge_data.merkle_root := by
  exact ⟨rfl, rfl, rfl, by decide⟩

/-- C10: `total_locked` is zero at initialization, no instruction mutates it,
and hence it is zero in every reachable state. -/
theorem total_locked_always_zero :
    (∀ w w' : World, Step w w' →
      w'.bridge_data.total_locked = w.bridge_data.total_locked)
    ∧ ∀ w : World, Reachable w → w.bridge_data.total_locked = 0 := by
  refine ⟨fun w w' h => step_total_locked h, fun w h => ?_⟩
  induction h with
  | init name symbol d ma m g r mx mn f => rfl
  | step w w' _ hstep ih => rw [step_total_locked hstep, ih]

lemma isProcessedAt_congr {v v' : World} (h : v'.processed_tx = v.processed_tx)
    (t : Nat) : isProcessedAt v' t = isProcessedAt v t := by
  unfold isProcessedAt; rw [h]

/-- A successful unlock only ever raises replay flags, never clears one. -/
lemma unlock_tokens_processed {w w' : World} {signer user uta amount tid : Nat}
    {proof : List Nat} {now : Int}
    (h : unlock_tokens w signer user uta amount tid proof now = .ok w') :
    ∀ t, isProcessedAt w t = true → isProcessedAt w' t = true := by
  simp only [unlock_tokens] at h
  repeat' split at h
  all_goals try exact Except.noConfusion h
  injection h with h
  subst h
  intro t ht
  by_cases htid : t = tid
  · subst htid; simp [isProcessedAt, updMap]
  · simpa [isProcessedAt, updMap, htid] using ht

/-- No instruction ever clears a replay flag. -/
lemma step_processed {v v' : World} (h : Step v v') :
    ∀ t, isProcessedAt v t = true → isProcessedAt v' t = true := by
  cases h with
  | set_mint_guard s g h =>
      exact fun t ht => (isProcessedAt_congr (set_mint_guard_frame h).2.2.2 t).trans ht
  | set_reserve_feed s f h =>
      exact fun t ht => (isProcessedAt_congr (set_reserve_feed_frame h).2.2.2 t).trans ht
  | mint_bloom g d a r h =>
      exact fun t ht => (isProcessedAt_congr (mint_bloom_frame h).2.2 t).trans ht
  | burn_bloom s a r h =>
      exact fun t ht => (isProcessedAt_congr (burn_bloom_frame h).2.2 t).trans ht
  | set_relayer r h =>
      exact fun t ht => (isProcessedAt_congr (set_relayer_frame h).2.2.2.1 t).trans ht
  | update_merkle_root s root now h =>
      exact fun t ht => (isProcessedAt_congr (update_merkle_root_frame h).2.2.2.1 t).trans ht
  | lock_tokens u uta bta a e now h =>
      exact fun t ht => (isProcessedAt_congr (lock_tokens_frame h).2.2 t).trans ht
  | unlock_tokens s u uta a t p now h => exact unlock_tokens_processed h
  | emergency_unlock u bta uta a now h =>
      exact fun t ht => (isProcessedAt_congr (emergency_unlock_frame h).2.2 t).trans ht

/-- C2: with a fresh transaction id and a proof valid against the stored
root, a relayer-signed unlock succeeds; repeating the call for the same
transaction id afterward fails with `TransactionAlreadyProcessed` and leaves
the state (in particular: mints nothing) unchanged; and no instruction of
either program ever resets a raised `is_processed` flag. -/
theorem unlock_replay_guard :
    (∀ (w w₁ : World) (signer user uta amount tid : Nat) (proof : List Nat)
      (now now₂ : Int) (user₂ uta₂ amount₂ : Nat) (proof₂ : List Nat),
      signer = w.bridge_data.relayer →
      isProcessedAt w tid = false →
      verify_merkle_proof (generate_leaf user amount tid) proof
        w.bridge_data.merkle_root = true →
      w.spl.supply + amount < U64 →
      w.spl.balances uta + amount < U64 →
      exOk (unlock_tokens w signer user uta amount tid proof now) = true
      ∧ (unlock_tokens w signer user uta amount tid proof now = .ok w₁ →
          unlock_tokens w₁ signer user₂ uta₂ amount₂ tid proof₂ now₂ =
            .error .TransactionAlreadyProcessed
          ∧ runW w₁ (unlock_tokens w₁ signer user₂ uta₂ amount₂ tid proof₂ now₂) = w₁))
    ∧ (∀ (v v' : World) (t : Nat), Step v v' →
        isProcessedAt v t = true → isProcessedAt v' t = true) := by
  constructor
  · intro w w₁ signer user uta amount tid proof now now₂ user₂ uta₂ amount₂ proof₂
      hsig hfresh hproof hsup hbal
    have hok := unlock_tokens_ok now hsig hfresh hproof hsup hbal
    constructor
    · rw [hok]; rfl
    · intro h1
      have hframe := unlock_tokens_frame h1
      have hptx : w₁.processed_tx tid =
          some ⟨((w.processed_tx tid).getD ⟨0, false, 0⟩).transaction_id, true, now⟩ := by
        rw [hok] at h1
        injection h1 with h1
        rw [← h1]
        simp [updMap]
      have herr : unlock_tokens w₁ signer user₂ uta₂ amount₂ tid proof₂ now₂ =
          .error .TransactionAlreadyProcessed := by
        simp only [unlock_tokens]
        rw [if_neg (by simp [hsig, hframe.2.1])]
        rw [hptx]
        simp
      exact ⟨herr, by rw [herr]; rfl⟩
  · exact fun v v' t h => step_processed h t

set_option maxRecDepth 100000 in
/-- Witness for C2 at a concrete deployment: the first unlock of transaction
id 3 succeeds, the second fails with `TransactionAlreadyProcessed` and
changes nothing. -/
theorem unlock_replay_guard_witness :
    exOk (unlock_tokens c2W 7 4 12 6 3 [] 1) = true
    ∧ unlock_tokens c2W1 7 4 12 6 3 [] 2 = .error .TransactionAlreadyProcessed
    ∧ runW c2W1 (unlock_tokens c2W1 7 4 12 6 3 [] 2) = c2W1 := by
  have h := unlock_replay_guard.1 c2W c2W1 7 4 12 6 3 [] 1 2 4 12 6 []
    rfl rfl (by rfl) (by decide) (by decide)
  exact ⟨h.1, (h.2 rfl).1, (h.2 rfl).2⟩

/-- Witness for C10 at concrete states: a fresh deployment has
`total_locked = 0`, and a concrete merkle-root update preserves it. -/
theorem total_locked_always_zero_witness :
    c2W.bridge_data.total_locked = c2Base.bridge_data.total_locked
    ∧ (init_world "A" "A" 0 1 2 3 4 5 0 1).bridge_data.total_locked = 0 := by
  exact ⟨total_locked_always_zero.1 c2Base c2W
      (Step.update_merkle_root c2Base c2W 7 (generate_leaf 4 6 3) 0 rfl),
    total_locked_always_zero.2 (init_world "A" "A" 0 1 2 3 4 5 0 1)
      (Reachable.init "A" "A" 0 1 2 3 4 5 0 1)⟩

end Mycelia

namespace Mycelia

/-- C9: `emergency_unlock` for more than the recorded locked balance fails
with `InsufficientLockedBalance` and changes nothing; otherwise it decrements
the locked balance by exactly `amount` and moves `amount` from the bridge
pool back to the user's token account; and the instruction never consults the
stored merkle root (its outcome is the same for every stored root). -/
theorem emergency_unlock_balance_check :
    ∀ (w : World) (user bta uta amount : Nat) (now : Int) (ul : UserLocked),
      w.user_locked user = some ul →
      (ul.amount < amount →
        emergency_unlock w user bta uta amount now = .error .InsufficientLockedBalance
        ∧ runW w (emergency_unlock w user bta uta amount now) = w)
      ∧ (amount ≤ ul.amount → amount ≤ w.spl.balances bta → uta ≠ bta →
          w.spl.balances uta + amount < U64 →
          exOk (emergency_unlock w user bta uta amount now) = true
          ∧ lockedAmt (runW w (emergency_unlock w user bta uta amount now)) user
              = ul.amount - amount
          ∧ (runW w (emergency_unlock w user bta uta amount now)).spl.balances bta
              = w.spl.balances bta - amount
          ∧ (runW w (emergency_unlock w user bta uta amount now)).spl.balances uta
              = w.spl.balances uta + amount)
      ∧ (∀ root : Nat,
          emergency_unlock (setRoot w root) user bta uta amount now =
            Except.map (fun v => setRoot v root) (emergency_unlock w user bta uta amount now)) := by
  intro w user bta uta amount now ul hul
  refine ⟨?_, ?_, ?_⟩
  · intro hgt
    have herr : emergency_unlock w user bta uta amount now =
        .error .InsufficientLockedBalance := by
      simp only [emergency_unlock, hul]
      rw [if_pos hgt]
    exact ⟨herr, by rw [herr]; rfl⟩
  · intro hle hsrc hne hdst
    have hok := emergency_unlock_ok now hul hle hsrc hne hdst
    rw [hok]
    refine ⟨rfl, ?_, ?_, ?_⟩
    · simp [runW, lockedAmt, updMap]
    · simp [runW, updFn, Ne.symm hne]
    · simp [runW, updFn, Ne.symm hne]
  · intro root
    simp only [emergency_unlock, setRoot]
    cases hu : w.user_locked user with
    | none => rfl
    | some ul' =>
      dsimp only
      by_cases hlt : ul'.amount < amount
      · rw [if_pos hlt, if_pos hlt]; rfl
      · rw [if_neg hlt, if_neg hlt]
        cases ht : spl_transfer w.spl bta uta amount with
        | error e => rfl
        | ok spl' => rfl

/-- Witness for C9 at a concrete state: with 40 locked, unlocking 100 fails
and changes nothing, unlocking 10 leaves 30 locked and moves the tokens, and
the stored merkle root is irrelevant. -/
theorem emergency_unlock_balance_check_witness :
    emergency_unlock c9W 1 12 11 100 5 = .error .InsufficientLockedBalance
    ∧ exOk (emergency_unlock c9W 1 12 11 10 5) = true
    ∧ lockedAmt (runW c9W (emergency_unlock c9W 1 12 11 10 5)) 1 = 30
    ∧ emergency_unlock (setRoot c9W 77) 1 12 11 10 5
        = Except.map (fun v => setRoot v 77) (emergency_unlock c9W 1 12 11 10 5) := by
  have h100 := emergency_unlock_balance_check c9W 1 12 11 100 5 ⟨0, 40, 0⟩ rfl
  have h10 := emergency_unlock_balance_check c9W 1 12 11 10 5 ⟨0, 40, 0⟩ rfl
  have hb := h10.2.1 (by decide) (by decide) (by decide) (by decide)
  exact ⟨(h100.1 (by decide)).1, hb.1, hb.2.1, h10.2.2 77⟩

/-- C8: with a configured mint guard (non-zero reference), a rejected mint
fails with `MintWouldBreakPeg` (the spec's `PegViolation`) and leaves the
state — in particular all three supply counters — unchanged; with no guard
configured, the guard decision plays no role in the outcome. -/
theorem mint_guard_enforcement :
    ∀ (w : World) (dest amount : Nat) (reason : String),
      (w.mint_data.mint_guard ≠ 0 →
        mint_bloom w false dest amount reason = .error .MintWouldBreakPeg
        ∧ runW w (mint_bloom w false dest amount reason) = w)
      ∧ (w.mint_data.mint_guard = 0 →
          ∀ g₁ g₂ : Bool,
            mint_bloom w g₁ dest amount reason = mint_bloom w g₂ dest amount reason) := by
  intro w dest amount reason
  constructor
  · intro hg
    have herr : mint_bloom w false dest amount reason = .error .MintWouldBreakPeg := by
      simp only [mint_bloom]
      rw [if_pos (by simp [hg])]
    exact ⟨herr, by rw [herr]; rfl⟩
  · intro hg g₁ g₂
    simp only [mint_bloom]
    rw [if_neg (by simp [hg]), if_neg (by simp [hg])]

/-- Witness for C8: with guard 5 installed a rejected mint fails and changes
nothing; without a guard the decision bit is irrelevant. -/
theorem mint_guard_enforcement_witness :
    (mint_bloom c8G false 10 5 "" = .error .MintWouldBreakPeg
     ∧ runW c8G (mint_bloom c8G false 10 5 "") = c8G)
    ∧ mint_bloom c8N false 10 5 "" = mint_bloom c8N true 10 5 "" :=
  ⟨(mint_guard_enforcement c8G 10 5 "").1 (by decide),
   (mint_guard_enforcement c8N 10 5 "").2 rfl false true⟩

end Mycelia

namespace Mycelia

/-- A successful unlock adds `amount` to the SPL supply and to the user's
token-account balance. -/
lemma unlock_tokens_spl {w w' : World} {signer user uta amount tid : Nat}
    {proof : List Nat} {now : Int}
    (h : unlock_tokens w signer user uta amount tid proof now = .ok w') :
    w'.spl.supply = w.spl.supply + amount
    ∧ w'.spl.balances uta = w.spl.balances uta + amount := by
  simp only [unlock_tokens] at h
  repeat' split at h
  all_goals try exact Except.noConfusion h
  injection h with h
  subst h
  rename_i spl' heq
  simp only [spl_mint_to] at heq
  split at heq
  · exact Except.noConfusion heq
  · split at heq
    · exact Except.noConfusion heq
    · injection heq with heq
      subst heq
      exact ⟨rfl, by simp [updFn]⟩

/-- Instruction `unlock_tokens` never reads the token-program account: its outcome is the
same for every `MintData`, with the untouched `MintData` carried along. -/
lemma unlock_tokens_mint_data_indep (w : World) (md : MintData)
    (signer user uta amount tid : Nat) (proof : List Nat) (now : Int) :
    unlock_tokens { w with mint_data := md } signer user uta amount tid proof now =
      Except.map (fun v => { v with mint_data := md })
        (unlock_tokens w signer user uta amount tid proof now) := by
  simp only [unlock_tokens]
  by_cases hs : signer ≠ w.bridge_data.relayer
  · rw [if_pos hs, if_pos hs]; rfl
  · rw [if_neg hs, if_neg hs]
    by_cases hp : ((w.processed_tx tid).getD ⟨0, false, 0⟩).is_processed = true
    · rw [if_pos hp, if_pos hp]; rfl
    · rw [if_neg hp, if_neg hp]
      by_cases hv : verify_merkle_proof (generate_leaf user amount tid) proof
          w.bridge_data.merkle_root = false
      · rw [if_pos hv, if_pos hv]; rfl
      · rw [if_neg hv, if_neg hv]
        cases hm : spl_mint_to w.spl uta amount with
        | error e => rfl
        | ok spl' => rfl

set_option maxRecDepth 400000 in
/-- C1 counterexample: a successful relayer unlock of amount 5 — with mint
guards configured on both sides — leaves the `MintData` counters
`total_minted` and `total_supply` entirely unchanged, so the issuance did not
go through the token program's guarded minting path. -/
theorem unlock_skips_mint_ledger_counterexample :
    c1G.mint_data.mint_guard = 9
    ∧ c1W.bridge_data.mint_guard = 9
    ∧ unlock_tokens c1W 7 1 11 5 2 [] 0 = .ok c1W'
    ∧ c1W'.mint_data.total_minted = c1W.mint_data.total_minted
    ∧ c1W'.mint_data.total_supply = c1W.mint_data.total_supply
    ∧ c1W.mint_data.total_minted + 5 ≠ c1W.mint_data.total_minted := by
  exact ⟨rfl, rfl, rfl, rfl, rfl, by decide⟩

/-- C1 (amended): a successful unlock issues `amount` through the raw SPL
`token::mint_to` signed by the bridge PDA: the SPL supply and the user's
balance grow by `amount`, while the token program's `MintData` — its guard
configuration and its `total_supply`/`total_minted` counters — is neither
consulted nor updated. -/
theorem unlock_mints_raw_spl :
    ∀ (w w' : World) (signer user uta amount tid : Nat) (proof : List Nat) (now : Int),
      unlock_tokens w signer user uta amount tid proof now = .ok w' →
      w'.mint_data = w.mint_data
      ∧ w'.spl.supply = w.spl.supply + amount
      ∧ w'.spl.balances uta = w.spl.balances uta + amount
      ∧ ∀ md : MintData,
          unlock_tokens { w with mint_data := md } signer user uta amount tid proof now =
            Except.map (fun v => { v with mint_data := md })
              (unlock_tokens w signer user uta amount tid proof now) := by
  intro w w' signer user uta amount tid proof now h
  exact ⟨(unlock_tokens_frame h).1, (unlock_tokens_spl h).1, (unlock_tokens_spl h).2,
    fun md => unlock_tokens_mint_data_indep w md signer user uta amount tid proof now⟩

set_option maxRecDepth 400000 in
/-- Witness for the amended C1 at the concrete unlock of amount 5. -/
theorem unlock_mints_raw_spl_witness :
    c1W'.mint_data = c1W.mint_data ∧ c1W'.spl.supply = c1W.spl.supply + 5 := by
  have h := unlock_mints_raw_spl c1W c1W' 7 1 11 5 2 [] 0 rfl
  exact ⟨h.1, h.2.1⟩

end Mycelia

namespace Mycelia

lemma wadd_eq {a b : Nat} (h : a + b < U64) : wadd a b = a + b := by
  simp only [wadd, U64] at *
  omega

lemma wsub_eq {a b : Nat} (hba : b ≤ a) (ha : a < U64) : wsub a b = a - b := by
  simp only [wsub, U64] at *
  omega

set_option maxRecDepth 400000 in
/-- C4 counterexample: with `fee_rate = 4` and `amount = 2^63` (inside the
configured `[0, 2^63]` range), the `u64` product `amount * fee_rate` wraps to
zero, so the computed fee is 0 instead of `floor(amount * fee_rate / 10000)`,
and the locked balance grows by the full `2^63` instead of the claimed
`amount - floor(amount * fee_rate / 10000)`. -/
theorem lock_fee_overflow_counterexample :
    c4W.bridge_data.fee_rate = 4
    ∧ c4W.bridge_data.min_bridge_amount ≤ 9223372036854775808
    ∧ 9223372036854775808 ≤ c4W.bridge_data.max_bridge_amount
    ∧ lock_tokens c4W 1 11 12 9223372036854775808 "x" 0 = .ok c4W'
    ∧ lockedAmt c4W 1 = 0
    ∧ lockedAmt c4W' 1 = 9223372036854775808
    ∧ lockedAmt c4W' 1 ≠
        lockedAmt c4W 1 + (9223372036854775808 - 9223372036854775808 * 4 / 10000) := by
  exact ⟨rfl, by decide, by decide, rfl, rfl, rfl, by decide⟩

/-- C4 (amended): when the fee multiplication does not overflow `u64`
(`amount * fee_rate_bps < 2^64`) and `fee_rate_bps ≤ 10000`, a valid lock
computes the exact fee `floor(amount * fee_rate_bps / 10000)`, transfers the
full `amount` from the user's account to the bridge account, and raises the
user's locked balance by exactly `net_amount = amount - fee` (the stated
bounds keep the `u64` balance addition from wrapping). -/
theorem lock_fee_exact :
    ∀ (w : World) (user uta bta amount : Nat) (e : String) (now : Int),
      w.bridge_data.min_bridge_amount ≤ amount →
      amount ≤ w.bridge_data.max_bridge_amount →
      amount < U64 →
      w.bridge_data.fee_rate ≤ 10000 →
      amount * w.bridge_data.fee_rate < U64 →
      amount ≤ w.spl.balances uta →
      bta ≠ uta →
      w.spl.balances bta + amount < U64 →
      lockedAmt w user + (amount - amount * w.bridge_data.fee_rate / 10000) < U64 →
      exOk (lock_tokens w user uta bta amount e now) = true
      ∧ (runW w (lock_tokens w user uta bta amount e now)).spl.balances uta
          = w.spl.balances uta - amount
      ∧ (runW w (lock_tokens w user uta bta amount e now)).spl.balances bta
          = w.spl.balances bta + amount
      ∧ lockedAmt (runW w (lock_tokens w user uta bta amount e now)) user
          = lockedAmt w user + (amount - amount * w.bridge_data.fee_rate / 10000) := by
  intro w user uta bta amount e now hmin hmax hamt hfr hmul hsrc hne hdst hcap
  have hfee : amount * w.bridge_data.fee_rate / 10000 ≤ amount := by
    calc amount * w.bridge_data.fee_rate / 10000
        ≤ amount * 10000 / 10000 :=
          Nat.div_le_div_right (Nat.mul_le_mul_left amount hfr)
      _ = amount := Nat.mul_div_cancel amount (by norm_num)
  have hok := lock_tokens_ok user e now hmin hmax hsrc hne hdst
  rw [hok]
  refine ⟨rfl, ?_, ?_, ?_⟩
  · simp [runW, updFn, Ne.symm hne]
  · simp [runW, updFn, Ne.symm hne]
  · have hcap' : ((w.user_locked user).getD ⟨0, 0, 0⟩).amount
        + (amount - amount * w.bridge_data.fee_rate / 10000) < U64 := hcap
    simp only [runW, lockedAmt, updMap]
    rw [Nat.mod_eq_of_lt hmul, wsub_eq hfee hamt, wadd_eq hcap']
    simp

/-- Witness for the amended C4: user 1 locks 40 at 30 bps from a balance of
50; fee 0, the full 40 moves to the bridge pool, and 40 is recorded locked. -/
theorem lock_fee_exact_witness :
    exOk (lock_tokens c9Base 1 11 12 40 "x" 0) = true
    ∧ (runW c9Base (lock_tokens c9Base 1 11 12 40 "x" 0)).spl.balances 11
        = c9Base.spl.balances 11 - 40
    ∧ (runW c9Base (lock_tokens c9Base 1 11 12 40 "x" 0)).spl.balances 12
        = c9Base.spl.balances 12 + 40
    ∧ lockedAmt (runW c9Base (lock_tokens c9Base 1 11 12 40 "x" 0)) 1
        = lockedAmt c9Base 1 + (40 - 40 * c9Base.bridge_data.fee_rate / 10000) := by
  exact lock_fee_exact c9Base 1 11 12 40 "x" 0 (by decide) (by decide) (by decide)
    (by decide) (by decide) (by decide) (by decide) (by decide) (by decide)
end Mycelia

namespace Mycelia

/-- Counter and supply effects of a successful mint. -/
lemma mint_bloom_shape {w w' : World} {g : Bool} {d a : Nat} {r : String}
    (h : mint_bloom w g d a r = .ok w') :
    w'.spl.supply = w.spl.supply + a
    ∧ w.spl.supply + a < U64
    ∧ w'.mint_data.total_supply = wadd w.mint_data.total_supply a
    ∧ w'.mint_data.total_minted = wadd w.mint_data.total_minted a
    ∧ w'.mint_data.total_burned = w.mint_data.total_burned := by
  simp only [mint_bloom] at h
  split at h
  · exact Except.noConfusion h
  · split at h
    · exact Except.noConfusion h
    · injection h with h
      subst h
      rename_i spl' heq
      simp only [spl_mint_to] at heq
      split at heq
      · exact Except.noConfusion heq
      · split at heq
        · exact Except.noConfusion heq
        · injection heq with heq
          subst heq
          rename_i hsup hbal
          exact ⟨rfl, by omega, rfl, rfl, rfl⟩

/-- Counter and supply effects of a successful burn. -/
lemma burn_bloom_shape {w w' : World} {s a : Nat} {r : String}
    (h : burn_bloom w s a r = .ok w') :
    w'.spl.supply = w.spl.supply - a
    ∧ a ≤ w.spl.supply
    ∧ w'.mint_data.total_supply = wsub w.mint_data.total_supply a
    ∧ w'.mint_data.total_burned = wadd w.mint_data.total_burned a
    ∧ w'.mint_data.total_minted = w.mint_data.total_minted := by
  simp only [burn_bloom] at h
  split at h
  · exact Except.noConfusion h
  · injection h with h
    subst h
    rename_i spl' heq
    simp only [spl_burn] at heq
    split at heq
    · exact Except.noConfusion heq
    · split at heq
      · exact Except.noConfusion heq
      · injection heq with heq
        subst heq
        rename_i hbal hsup
        exact ⟨rfl, by omega, rfl, rfl, rfl⟩

lemma supplyInv_init (name symbol : String) (decimals mint_authority : Nat)
    (bloom_token_mint mint_guard relayer : Nat) (maxA minA fee : Nat) :
    SupplyInv (init_world name symbol decimals mint_authority
      bloom_token_mint mint_guard relayer maxA minA fee) := by
  refine ⟨rfl, ?_, ?_, ?_, ?_⟩ <;> simp [init_world, initialize_bloom_mint, U64]

lemma supplyInv_mint {w w' : World} {g : Bool} {d a : Nat} {r : String}
    (hw : SupplyInv w) (h : mint_bloom w g d a r = .ok w') : SupplyInv w' := by
  obtain ⟨e1, e2, e3, e4, e5⟩ := mint_bloom_shape h
  obtain ⟨i1, i2, i3, i4, i5⟩ := hw
  refine ⟨?_, ?_, ?_, ?_, ?_⟩
  · rw [e3, e1, i1, wadd_eq e2]
  · rw [e1]; exact e2
  · rw [e4]; simp only [wadd, U64]; omega
  · rw [e5]; exact i4
  · rw [e3, e4, e5, i1]
    rw [i1] at i5
    simp only [wadd, U64] at *
    omega

lemma supplyInv_burn {w w' : World} {s a : Nat} {r : String}
    (hw : SupplyInv w) (h : burn_bloom w s a r = .ok w') : SupplyInv w' := by
  obtain ⟨e1, e2, e3, e4, e5⟩ := burn_bloom_shape h
  obtain ⟨i1, i2, i3, i4, i5⟩ := hw
  refine ⟨?_, ?_, ?_, ?_, ?_⟩
  · rw [e3, e1, i1, wsub_eq e2 i2]
  · rw [e1]; omega
  · rw [e5]; exact i3
  · rw [e4]; simp only [wadd, U64]; omega
  · rw [e3, e4, e5, i1]
    rw [i1] at i5
    simp only [wadd, wsub, U64] at *
    omega

/-- Every state reachable by mint/burn alone satisfies the invariant. -/
lemma mintBurnReach_inv {w : World} (h : MintBurnReach w) : SupplyInv w := by
  induction h with
  | init name symbol d ma m g r mx mn f => exact supplyInv_init name symbol d ma m g r mx mn f
  | mint w w' g d a r _ h ih => exact supplyInv_mint ih h
  | burn w w' s a r _ h ih => exact supplyInv_burn ih h

/-- C7 (amended): starting from the zeroed counters, after any sequence of
successful mints and burns the stored `total_supply` equals the true SPL
supply (so it is exact, never negative and never wraps) and the counters
satisfy `total_supply = total_minted - total_burned` modulo `2^64`; and each
mint or burn moves its cumulative counter up by exactly `amount` — hence
monotonically — as long as that counter does not overflow `2^64`. -/
theorem supply_invariant_modular :
    ∀ w : World, MintBurnReach w →
      (w.mint_data.total_supply = w.spl.supply
        ∧ (w.mint_data.total_supply + w.mint_data.total_burned) % U64
            = w.mint_data.total_minted)
      ∧ (∀ (w' : World) (g : Bool) (d a : Nat) (r : String),
          mint_bloom w g d a r = .ok w' → w.mint_data.total_minted + a < U64 →
          w'.mint_data.total_minted = w.mint_data.total_minted + a
          ∧ w'.mint_data.total_burned = w.mint_data.total_burned)
      ∧ (∀ (w' : World) (s a : Nat) (r : String),
          burn_bloom w s a r = .ok w' → w.mint_data.total_burned + a < U64 →
          w'.mint_data.total_burned = w.mint_data.total_burned + a
          ∧ w'.mint_data.total_minted = w.mint_data.total_minted) := by
  intro w hr
  have hinv := mintBurnReach_inv hr
  refine ⟨⟨hinv.1, hinv.2.2.2.2⟩, ?_, ?_⟩
  · intro w' g d a r h hnw
    obtain ⟨e1, e2, e3, e4, e5⟩ := mint_bloom_shape h
    exact ⟨by rw [e4, wadd_eq hnw], e5⟩
  · intro w' s a r h hnw
    obtain ⟨e1, e2, e3, e4, e5⟩ := burn_bloom_shape h
    exact ⟨by rw [e4, wadd_eq hnw], e5⟩

/-- C7 counterexample: mint `2^64 - 1`, burn it, mint 6 — every step
succeeds, yet the wrapping `total_minted` counter falls from `2^64 - 1` to 5
(so it is not monotone), and the plain equation
`total_supply = total_minted - total_burned` fails in the final state. -/
theorem supply_counter_wrap_counterexample :
    mint_bloom c7W0 true 10 18446744073709551615 "" = .ok c7W1
    ∧ burn_bloom c7W1 10 18446744073709551615 "" = .ok c7W2
    ∧ mint_bloom c7W2 true 10 6 "" = .ok c7W3
    ∧ c7W2.mint_data.total_minted = 18446744073709551615
    ∧ c7W3.mint_data.total_minted = 5
    ∧ c7W3.mint_data.total_minted < c7W2.mint_data.total_minted
    ∧ c7W3.mint_data.total_supply = 6
    ∧ c7W3.mint_data.total_supply ≠
        c7W3.mint_data.total_minted - c7W3.mint_data.total_burned := by
  exact ⟨rfl, rfl, rfl, rfl, rfl, by decide, rfl, by decide⟩

/-- Witness for the amended C7 at a concrete reachable state. -/
theorem supply_invariant_modular_witness :
    c7W0.mint_data.total_supply = c7W0.spl.supply
    ∧ c7W1.mint_data.total_minted = c7W0.mint_data.total_minted + 18446744073709551615 := by
  have h := supply_invariant_modular c7W0
    (MintBurnReach.init "B" "B" 9 1 3 0 7 100 0 30)
  exact ⟨h.1.1, (h.2.1 c7W1 true 10 18446744073709551615 "" rfl (by decide)).1⟩

end Mycelia
